import Mathlib

/-!
Verification development for the expression algebra and Series operation
engine of the bach library (files `bach/bach/expression.py` and
`bach/bach/series/series.py`).

An `Expression` in the source is an immutable object holding an ordered
sequence whose elements are either `ExpressionToken`s or nested
`Expression`s, with semantic flags carried as class identity
(`NonAtomicExpression`, `IndependentSubqueryExpression`,
`SingleValueExpression`, `ConstValueExpression`, and — imported by
`series.py` — `AggregateFunctionExpression` and a windowed variant).
We embed the element sequence as the inductive `ExprData` (a cons-list
whose cells are either a token or a nested tagged sequence) and an
`Expression` as a pair of a tag (the Python class identity) and its data.
-/

/-- Tokens, from `expression.py` lines 14-50.  `AggFunctionRawToken`
subclasses `RawToken` in the source; `ModelReferenceToken` holds a
reference to a compiled sql model, of which only the content hash is
ever used (via `refname`). -/
inductive ExpressionToken : Type where
  | RawToken (raw : String)
  | AggFunctionRawToken (raw : String)
  | ColumnReferenceToken (column_name : String)
  | ModelReferenceToken (modelHash : String)
  | StringValueToken (value : String)
deriving DecidableEq, Repr

/-- Class identity of an Expression instance.  `plain` is the exact class
`Expression`; the next four are the tag subclasses defined in
`expression.py` lines 242-268.  `aggregateFunction` and `windowFunction`
are modelled from the spec: `series.py` imports `AggregateFunctionExpression`
from `bach.expression` and reads `expression.has_windowed_aggregate_function`,
but the copy of `expression.py` in the repository predates both; the spec
describes them as tag subclasses "used by the Series layer to detect illegal
re-aggregation". -/
inductive ExprTag : Type where
  | plain
  | nonAtomic
  | independentSubquery
  | singleValue
  | constValue
  | aggregateFunction
  | windowFunction
deriving DecidableEq, Repr

/-- The element sequence of an Expression: each element is either a token
(`tokCons`) or a nested Expression, stored as its tag plus its own element
sequence (`exprCons`). -/
inductive ExprData : Type where
  | nil : ExprData
  | tokCons (t : ExpressionToken) (rest : ExprData) : ExprData
  | exprCons (tag : ExprTag) (child : ExprData) (rest : ExprData) : ExprData
deriving DecidableEq, Repr

def ExprData.append : ExprData → ExprData → ExprData
  | .nil, ys => ys
  | .tokCons t rest, ys => .tokCons t (rest.append ys)
  | .exprCons tg c rest, ys => .exprCons tg c (rest.append ys)

instance : Append ExprData := ⟨ExprData.append⟩

/-- An Expression: its Python class identity (tag) and its element
sequence (`self._data`). -/
structure Expression : Type where
  tag : ExprTag
  data : ExprData
deriving DecidableEq, Repr

/-- One step of the flattening performed by `Expression.__init__`
(`expression.py` lines 74-78): an element that is an Expression of the
exact class `Expression` (`type(x) is Expression`, i.e. tag `plain`) is
replaced by its own elements; all other elements are kept. -/
def spliceElem (tg : ExprTag) (c : ExprData) : ExprData → ExprData :=
  fun rest => if tg = .plain then c ++ rest else .exprCons tg c rest

/-- Flattening of a whole element list, as done by `Expression.__init__`:
`[item for sublist in [x.data if type(x) is Expression else [x] for x in data] for item in sublist]`. -/
def flattenOnce : ExprData → ExprData
  | .nil => .nil
  | .tokCons t rest => .tokCons t (flattenOnce rest)
  | .exprCons tg c rest => spliceElem tg c (flattenOnce rest)

/-- `Expression.__init__` called with a list of elements (`expression.py`
lines 68-78): flattens one level.  The class the constructor is invoked on
(`cls`) becomes the tag of the new instance. -/
def Expression.make (tag : ExprTag) (data : ExprData) : Expression :=
  ⟨tag, flattenOnce data⟩

/-- `Expression.__init__` called with an Expression instead of a list:
`if isinstance(data, Expression): data = data.data` — the argument is
replaced by its element list (its own tag is dropped), then flattened. -/
def Expression.ofExpr (tag : ExprTag) (e : Expression) : Expression :=
  Expression.make tag e.data

/-- `Expression.raw` (`expression.py` line 129-132). -/
def Expression.raw (raw : String) : Expression :=
  Expression.make .plain (.tokCons (.RawToken raw) .nil)

/-- `Expression.agg_function_raw` (`expression.py` line 134-137). -/
def Expression.agg_function_raw (raw : String) : Expression :=
  Expression.make .plain (.tokCons (.AggFunctionRawToken raw) .nil)

/-- `Expression.string_value` (`expression.py` line 139-145). -/
def Expression.string_value (value : String) : Expression :=
  Expression.make .plain (.tokCons (.StringValueToken value) .nil)

/-- `Expression.column_reference` (`expression.py` line 147-150). -/
def Expression.column_reference (field_name : String) : Expression :=
  Expression.make .plain (.tokCons (.ColumnReferenceToken field_name) .nil)

/-- `Expression.model_reference` (`expression.py` line 152-155); the model
is identified by its content hash. -/
def Expression.model_reference (modelHash : String) : Expression :=
  Expression.make .plain (.tokCons (.ModelReferenceToken modelHash) .nil)

def lbraceChar : Char := Char.ofNat 123

def rbraceChar : Char := Char.ofNat 125

def dquoteChar : Char := Char.ofNat 34

def squoteChar : Char := Char.ofNat 39

/-- Split a character list on each (non-overlapping, left-to-right)
occurrence of the two-character marker `\x7b\x7d`, mirroring Python
`fmt.split('\x7b\x7d')` as used in `Expression.construct`.  The first
argument accumulates the current segment in reverse. -/
def splitFmtGo : List Char → List Char → List String
  | acc, [] => [String.mk acc.reverse]
  | acc, [c] => [String.mk (c :: acc).reverse]
  | acc, c1 :: c2 :: rest =>
    if c1 = lbraceChar ∧ c2 = rbraceChar then
      String.mk acc.reverse :: splitFmtGo [] rest
    else
      splitFmtGo (c1 :: acc) (c2 :: rest)

def splitFmt (fmt : String) : List String := splitFmtGo [] fmt.data

/-- Error values raised by the embedded code, mirroring the Python
exception classes; messages are carried verbatim where practical. -/
inductive Err : Type where
  | valueError (msg : String)
  | typeError (msg : String)
  | notImplementedError (msg : String)
deriving DecidableEq, Repr

deriving instance DecidableEq for Except

/-- Elements contributed by one operand in `Expression.construct`
(`expression.py` lines 114-124): a NonAtomic operand is wrapped in literal
parenthesis tokens; any other operand is inserted as-is (the final
constructor call then splices exact-class operands). -/
def argData (a : Expression) : ExprData :=
  if a.tag = .nonAtomic then
    .tokCons (.RawToken "(") (.exprCons a.tag a.data (.tokCons (.RawToken ")") .nil))
  else
    .exprCons a.tag a.data .nil

/-- Elements contributed by one template segment in `Expression.construct`
(`expression.py` lines 125-126): a non-empty segment becomes one RawToken. -/
def segData (s : String) : ExprData :=
  if s = "" then .nil else .tokCons (.RawToken s) .nil

/-- The loop body of `Expression.construct` for segments after the first:
operand elements, then segment elements, in template order. -/
def interleaveData : List String → List Expression → ExprData
  | [], _ => .nil
  | s :: ss, [] => segData s ++ interleaveData ss []
  | s :: ss, a :: as => argData a ++ segData s ++ interleaveData ss as

/-- The full element list built by the loop of `Expression.construct`. -/
def constructData : List String → List Expression → ExprData
  | [], _ => .nil
  | s :: ss, args => segData s ++ interleaveData ss args

/-- `Expression.construct` (`expression.py` lines 93-127): split the format
string on the placeholder marker, require exactly one operand per marker
(else ValueError), interleave segments (as Raw tokens) with operands
(NonAtomic operands wrapped in literal parentheses), and build the result
through the flattening constructor invoked on `cls` (the tag). -/
def Expression.construct (tag : ExprTag) (fmt : String) (args : List Expression) :
    Except Err Expression :=
  let sub_strs := splitFmt fmt
  if args.length = sub_strs.length - 1 then
    .ok (Expression.make tag (constructData sub_strs args))
  else
    .error (.valueError "For each placeholder in the fmt there should be an Expression provided")

/-- Does the element list have at least one direct nested-Expression child?
Mirrors `len(all_constant)` over `[d for d in self._data if isinstance(d, Expression)]`. -/
def hasExprChild : ExprData → Bool
  | .nil => false
  | .tokCons _ rest => hasExprChild rest
  | .exprCons _ _ _ => true

/-- Are all direct nested-Expression children constant?  The per-child value
is Python virtual dispatch of the `is_constant` property: `ConstValueExpression`
overrides it to True; `AggregateFunctionExpression` (modelled from the spec
and from the comment at `series.py` line 886: "count is not constant because
it depends on the number of rows") overrides it to False; every other class
uses the base rule of `expression.py` lines 178-182: at least one
Expression child and all Expression children constant. -/
def allChildrenConstant : ExprData → Bool
  | .nil => true
  | .tokCons _ rest => allChildrenConstant rest
  | .exprCons tg c rest =>
    (if tg = .constValue then true
     else if tg = .aggregateFunction then false
     else hasExprChild c && allChildrenConstant c) && allChildrenConstant rest

/-- `Expression.is_constant` with virtual dispatch over the class tag. -/
def Expression.is_constant (e : Expression) : Bool :=
  if e.tag = .constValue then true
  else if e.tag = .aggregateFunction then false
  else hasExprChild e.data && allChildrenConstant e.data

/-- Analogue of `allChildrenConstant` for `is_single_value`
(`expression.py` lines 184-187): `SingleValueExpression` overrides the
property to True and `ConstValueExpression` inherits that override. -/
def allChildrenSingleValue : ExprData → Bool
  | .nil => true
  | .tokCons _ rest => allChildrenSingleValue rest
  | .exprCons tg c rest =>
    (if tg = .singleValue ∨ tg = .constValue then true
     else hasExprChild c && allChildrenSingleValue c) && allChildrenSingleValue rest

/-- `Expression.is_single_value` with virtual dispatch over the class tag. -/
def Expression.is_single_value (e : Expression) : Bool :=
  if e.tag = .singleValue ∨ e.tag = .constValue then true
  else hasExprChild e.data && allChildrenSingleValue e.data

/-- `Expression.is_independent_subquery` (`expression.py` lines 189-191 and
249-253): False in the base class, True only for the
`IndependentSubqueryExpression` class itself; not propagated from children. -/
def Expression.is_independent_subquery (e : Expression) : Bool :=
  e.tag = .independentSubquery

/-- Recursive search used by `has_aggregate_function` (`expression.py`
lines 193-199): any `AggFunctionRawToken`, or any nested Expression
reporting true.  A nested Expression of the (spec-modelled)
`AggregateFunctionExpression` class reports true by class override. -/
def hasAggAny : ExprData → Bool
  | .nil => false
  | .tokCons (.AggFunctionRawToken _) _ => true
  | .tokCons _ rest => hasAggAny rest
  | .exprCons tg c rest => (tg = .aggregateFunction || hasAggAny c) || hasAggAny rest

/-- `Expression.has_aggregate_function`; the top-level tag test is the
spec-modelled override of `AggregateFunctionExpression`, the rest is the
base implementation of `expression.py` lines 193-199. -/
def Expression.has_aggregate_function (e : Expression) : Bool :=
  e.tag = .aggregateFunction || hasAggAny e.data

/-- Modelled from the spec: `series.py` line 826 reads
`self.expression.has_windowed_aggregate_function`, absent from the
repository copy of `expression.py`.  The spec describes a `Windowed` tag
subclass "used by the Series layer to detect illegal re-aggregation";
we model the property exactly like `has_aggregate_function`: true when the
expression itself is window-tagged or any nested Expression reports true. -/
def hasWindowedAny : ExprData → Bool
  | .nil => false
  | .tokCons _ rest => hasWindowedAny rest
  | .exprCons tg c rest => (tg = .windowFunction || hasWindowedAny c) || hasWindowedAny rest

/-- Modelled from the spec: see `hasWindowedAny`. -/
def Expression.has_windowed_aggregate_function (e : Expression) : Bool :=
  e.tag = .windowFunction || hasWindowedAny e.data

/-- Double every occurrence of the character `q` in a character list. -/
def escDouble (q : Char) : List Char → List Char
  | [] => []
  | c :: cs => if c = q then q :: q :: escDouble q cs else c :: escDouble q cs

/-- Modelled from the spec: `sql_models.util.quote_identifier` (outside the
repository copy) — the spec says ColumnReference tokens are "replaced with
a Raw token containing the properly quoted identifier"; standard SQL
identifier quoting doubles embedded double quotes and wraps in double
quotes. -/
def quote_identifier (s : String) : String :=
  String.mk (dquoteChar :: (escDouble dquoteChar s.data ++ [dquoteChar]))

/-- Modelled from the spec: `sql_models.util.quote_string` (outside the
repository copy) — "StringValue: quote-and-escape the value"; standard SQL
string quoting doubles embedded single quotes and wraps in single quotes. -/
def quote_string (s : String) : String :=
  String.mk (squoteChar :: (escDouble squoteChar s.data ++ [squoteChar]))

def escFmtChars : List Char → List Char
  | [] => []
  | c :: cs =>
    if c = lbraceChar then lbraceChar :: lbraceChar :: escFmtChars cs
    else if c = rbraceChar then rbraceChar :: rbraceChar :: escFmtChars cs
    else c :: escFmtChars cs

/-- Modelled from the spec: `SqlModelSpec.escape_format_string` (outside the
repository copy) — "an escaping step that neutralizes characters meaningful
to the external placeholder-substitution syntax ... so that literal braces
in raw SQL do not collide with reference placeholders": braces are doubled. -/
def escape_format_string (s : String) : String :=
  String.mk (escFmtChars s.data)

/-- The table-name prefix used when resolving a column reference
(`expression.py` line 164): empty when no (or an empty, hence falsy)
table name is given. -/
def tablePrefix : Option String → String
  | none => ""
  | some tn => if tn = "" then "" else quote_identifier tn ++ "."

/-- The loop of `Expression.resolve_column_references` (`expression.py`
lines 157-168) over an element list: ColumnReference tokens become Raw
tokens holding the (optionally table-qualified) quoted identifier, nested
Expressions are resolved recursively (rebuilt through their flattening
constructor), all other tokens pass through. -/
def resolveData (t : Option String) : ExprData → ExprData
  | .nil => .nil
  | .tokCons (.ColumnReferenceToken c) rest =>
    .tokCons (.RawToken (tablePrefix t ++ quote_identifier c)) (resolveData t rest)
  | .tokCons tk rest => .tokCons tk (resolveData t rest)
  | .exprCons tg child rest =>
    .exprCons tg (flattenOnce (resolveData t child)) (resolveData t rest)

/-- `Expression.resolve_column_references`: resolves all elements and
rebuilds the expression through `self.__class__(result)` (same tag,
flattening constructor). -/
def Expression.resolve_column_references (e : Expression) (table_name : Option String) :
    Expression :=
  Expression.make e.tag (resolveData table_name e.data)

/-- The rendering loop of `Expression.to_sql` (`expression.py` lines
222-239) over an element list: Raw tokens (including AggFunctionRaw, a
RawToken subclass) render as their escaped text, a surviving
ColumnReference token raises ValueError, ModelReference renders as a
placeholder keyed by the model hash, StringValue is quoted then escaped,
and a nested Expression is rendered recursively.  In the source a nested
Expression is rendered via `data_item.to_sql()`, which resolves it again
with no table name; since this loop only ever runs on the output of
`resolve_column_references` — which resolves recursively and leaves an
expression that re-resolution maps to itself (proved below as
`resolveData_resolved` / `resolvedData_spec`) — rendering the nested
element list directly is the same function. -/
def renderData : ExprData → Except Err String
  | .nil => .ok ""
  | .tokCons (.RawToken r) rest =>
    Except.map (fun s => escape_format_string r ++ s) (renderData rest)
  | .tokCons (.AggFunctionRawToken r) rest =>
    Except.map (fun s => escape_format_string r ++ s) (renderData rest)
  | .tokCons (.ColumnReferenceToken _) _ =>
    .error (.valueError
      "ColumnReferenceTokens should be resolved first using Expression.resolve_column_references")
  | .tokCons (.ModelReferenceToken h) rest =>
    Except.map (fun s => "\x7breference" ++ h ++ "\x7d" ++ s) (renderData rest)
  | .tokCons (.StringValueToken v) rest =>
    Except.map (fun s => escape_format_string (quote_string v) ++ s) (renderData rest)
  | .exprCons _ c rest =>
    match renderData c with
    | .error e => .error e
    | .ok s => Except.map (fun s2 => s ++ s2) (renderData rest)

/-- `Expression.to_sql` (`expression.py` lines 210-239): resolves column
references first (line 223: `self.resolve_column_references(table_name).data`),
then renders each element. -/
def Expression.to_sql (e : Expression) (table_name : Option String) : Except Err String :=
  renderData (e.resolve_column_references table_name).data

/-- `Expression.__eq__` (`expression.py` lines 84-85) on element lists:
structural comparison of the sequences, where a nested Expression is again
compared by `__eq__` — so the class tags of nested Expressions are ignored
throughout, while tokens compare structurally (dataclass equality,
including their concrete token class). -/
def exprEqData : ExprData → ExprData → Bool
  | .nil, .nil => true
  | .tokCons a r1, .tokCons b r2 => a == b && exprEqData r1 r2
  | .exprCons _ c1 r1, .exprCons _ c2 r2 => exprEqData c1 c2 && exprEqData r1 r2
  | _, _ => false

/-- `Expression.__eq__`: `isinstance(other, Expression) and self.data == other.data`
— any two Expression instances (of any tag subclass) compare by element
sequence alone. -/
def Expression.eq (e1 e2 : Expression) : Bool :=
  exprEqData e1.data e2.data

/-- A compiled sql model (query unit), identified — as far as the core is
concerned — by its stable content hash (spec section 6: the core "never
inspects the unit's internal structure beyond this identity"). -/
structure SqlModel : Type where
  hash : String
deriving DecidableEq, Repr

/-- Modelled from the spec: `bach.partitioning.GroupBy` (outside the
repository copy) — "a partitioning object exposing `index` (mapping)".
We identify the index mapping by the ordered list of its column names;
`GroupBy([])` has the empty index. -/
structure GroupBy : Type where
  index : List String
deriving DecidableEq, Repr

/-- Modelled from the spec: `bach.partitioning.Window` (outside the
repository copy) — a GroupBy subclass additionally exposing `min_values`
and `get_window_expression`; `frame_clause` stands for its framing syntax. -/
structure WindowSpec : Type where
  index : List String
  min_values : Option Nat
  frame_clause : String
deriving DecidableEq, Repr

/-- A partition as handled by `Series._derived_agg_func`: either a plain
GroupBy or a true Window (in Python, `Window` is a subclass of `GroupBy`
and is distinguished with `isinstance`). -/
inductive Partition : Type where
  | groupBy (g : GroupBy)
  | window (w : WindowSpec)
deriving DecidableEq, Repr

def Partition.index : Partition → List String
  | .groupBy g => g.index
  | .window w => w.index

/-- Modelled from the spec: `Window.get_window_expression` — "defers to the
window object to wrap the expression with the appropriate window-function
framing syntax".  The wrapper is the window-tagged Expression class. -/
def WindowSpec.get_window_expression (w : WindowSpec) (e : Expression) : Expression :=
  Expression.make .windowFunction
    (.exprCons e.tag e.data (.tokCons (.RawToken (" OVER (" ++ w.frame_clause ++ ")")) .nil))

/-- A Series (`series.py` lines 29-90): engine handle (opaque), the
compiled query unit its expression is valid against, its index (identified
by the ordered column names of the index mapping), name, expression,
optional pending partition, optional sort direction, and the dtype of its
concrete Python class. -/
structure Series : Type where
  engine : String
  base_node : SqlModel
  index : List String
  name : String
  expression : Expression
  group_by : Option Partition
  sorted_ascending : Option Bool
  dtype : String
deriving DecidableEq, Repr

/-- Modelled from the spec: `series.to_frame().materialize()`
(`series.py` line 420; DataFrame and materialization live outside the
core) — "force materialization of its owning query context into a
standalone compiled unit".  We model the fresh unit's content-derived
identity as a function of the series' context. -/
def materializedNode (s : Series) : SqlModel :=
  ⟨"materialized:" ++ s.base_node.hash ++ ":" ++ s.name⟩

def strLowerChars : List Char → List Char
  | [] => []
  | c :: cs => c.toLower :: strLowerChars cs

/-- `str.lower()` as used in `Series._get_supported` on dtypes. -/
def strLower (s : String) : String := String.mk (strLowerChars s.data)

/-- `Series.as_independent_subquery` (`series.py` lines 411-431):
materialize the series' context into a standalone unit, build
`[OP] (SELECT <col> FROM <unit-reference>)` as an
IndependentSubqueryExpression, re-wrap it as a SingleValueExpression iff
the original expression was single-value (the source comment: "The
expression is lost when materializing"), and rebind the series with the
new expression, optional dtype override, empty index and no group_by. -/
def Series.as_independent_subquery (series : Series) (operation : Option String)
    (dtype : Option String) : Except Err Series :=
  let node := materializedNode series
  let fmt_string := match operation with
    | some op => op ++ " (SELECT \x7b\x7d FROM \x7b\x7d)"
    | none => "(SELECT \x7b\x7d FROM \x7b\x7d)"
  match Expression.construct .independentSubquery fmt_string
      [Expression.column_reference series.name, Expression.model_reference node.hash] with
  | .error e => .error e
  | .ok expr0 =>
    let expr := if series.expression.is_single_value then Expression.ofExpr .singleValue expr0
                else expr0
    .ok { series with
          expression := expr
          dtype := match dtype with | none => series.dtype | some d => d
          index := []
          group_by := none }

/-- `Series._get_supported` (`series.py` lines 316-333): if the right-hand
operand's expression is neither constant nor an independent subquery and
the operands differ in base_node or group_by, the operand must be
single-valued — then it is converted through `as_independent_subquery` —
or a ValueError is raised; finally the (possibly converted) operand's
dtype must be in the operation's allow-list or a TypeError is raised. -/
def Series.get_supported (self : Series) (operation_name : String)
    (supported_dtypes : List String) (other : Series) : Except Err Series :=
  let step1 : Except Err Series :=
    if other.expression.is_constant || other.expression.is_independent_subquery then .ok other
    else if self.base_node = other.base_node ∧ self.group_by = other.group_by then .ok other
    else if other.expression.is_single_value then Series.as_independent_subquery other none none
    else .error (.valueError
      "rhs has a different base_node or group_by, but contains more than one value. This is not supported.")
  match step1 with
  | .error e => .error e
  | .ok o =>
    if strLower o.dtype ∈ supported_dtypes then .ok o
    else .error (.typeError (operation_name ++ " not supported between " ++ self.dtype ++
      " and " ++ o.dtype ++ "."))

/-- The `expression` argument of `_derived_agg_func`: either the name of a
sql aggregation function or a pre-built Expression. -/
inductive AggArg : Type where
  | name (fn : String)
  | expr (e : Expression)

/-- Resolution of the effective partition in `_derived_agg_func`
(`series.py` lines 839-846): an explicit argument wins, else the series'
own pending group_by, else a whole-input grouping `GroupBy([])`. -/
def effectivePartition (partition : Option Partition) (gb : Option Partition) : Partition :=
  match partition with
  | some p => p
  | none => match gb with
    | some g => g
    | none => .groupBy ⟨[]⟩

/-- First phase of `Series._derived_agg_func` (`series.py` lines 823-846):
the skipna guard, the two illegal-reaggregation guards (already windowed /
already aggregated), turning a function name into an
`AggregateFunctionExpression.construct(f'{name}({...})', self)` expression,
and resolving the effective partition. -/
def Series.agg_prelude (s : Series) (partition : Option Partition) (arg : AggArg)
    (skipna : Bool) : Except Err (Expression × Partition) :=
  if skipna = false then .error (.notImplementedError "Not skipping n/a is not supported")
  else if s.expression.has_windowed_aggregate_function then
    .error (.valueError ("Cannot call an aggregation function on already windowed column " ++
      s.name ++ " Try calling materialize() on the DataFrame this Series belongs to first."))
  else if s.expression.has_aggregate_function then
    .error (.valueError ("Cannot call an aggregation function on already aggregated column " ++
      s.name ++ " Try calling materialize() on the DataFrame this Series belongs to first."))
  else
    let exprE : Except Err Expression :=
      match arg with
      | .name fn => Expression.construct .aggregateFunction (fn ++ "(\x7b\x7d)") [s.expression]
      | .expr e => .ok e
    match exprE with
    | .error e => .error e
    | .ok expr => .ok (expr, effectivePartition partition s.group_by)

/-- Final phase of `Series._derived_agg_func` (`series.py` lines 861-883):
for a non-window partition, check it against the series' own pending
partition, require the expression to carry an aggregate function, tag the
expression SingleValue when the grouping key is empty, and rebind the
series to the partition's index with the partition as pending group_by;
for a true window, wrap the expression through the window and keep index
and group_by unchanged. -/
def groupByMismatch (sgb : Option Partition) (g : GroupBy) : Bool :=
  match sgb with
  | none => false
  | some gb => gb ≠ Partition.groupBy g

def Series.agg_finish (s : Series) (expr : Expression) (part : Partition)
    (dtype : Option String) : Except Err Series :=
  let derived_dtype := match dtype with | none => s.dtype | some d => d
  match part with
  | .window w =>
    .ok { s with dtype := derived_dtype, expression := w.get_window_expression expr }
  | .groupBy g =>
    if groupByMismatch s.group_by g then
      .error (.valueError "passed partition does not match series partition. I am confused")
    else if expr.has_aggregate_function = false then
      .error (.valueError "Passed expression should contain an aggregation function")
    else
      let expr2 := if g.index = [] then Expression.ofExpr .singleValue expr else expr
      .ok { s with
            dtype := derived_dtype
            index := g.index
            group_by := some (Partition.groupBy g)
            expression := expr2 }

/-- `Series.count` with `min_count = None` (`series.py` lines 885-888),
used by the min_count guard of `_derived_agg_func` itself; defined
separately to break the (bounded) recursion of the source. -/
def Series.count_core (s : Series) (partition : Option Partition) (skipna : Bool) :
    Except Err Series :=
  match s.agg_prelude partition (.name "count") skipna with
  | .error e => .error e
  | .ok (expr, part) => s.agg_finish expr part (some "int64")

/-- The min_count guard of `_derived_agg_func` (`series.py` lines 848-859):
for a Window partition the threshold must equal the window's own
`min_values`; for a plain grouping the aggregate is wrapped in a
CASE WHEN comparing `self.count(partition)` against the threshold. -/
def Series.agg_min_count (s : Series) (expr : Expression) (part : Partition)
    (skipna : Bool) : Option Nat → Except Err Expression
  | none => .ok expr
  | some mc =>
    if mc = 0 then .ok expr
    else match part with
      | .window w =>
        if w.min_values = some mc then .ok expr
        else .error (.notImplementedError "min_count conflicting with min_values in Window")
      | .groupBy _ =>
        match s.count_core (some part) skipna with
        | .error e => .error e
        | .ok cnt =>
          Expression.construct .plain
            ("CASE WHEN \x7b\x7d >= " ++ toString mc ++ " THEN \x7b\x7d ELSE NULL END")
            [cnt.expression, expr]

/-- `Series._derived_agg_func` (`series.py` lines 799-883), assembled from
its phases. -/
def Series.derived_agg_func (s : Series) (partition : Option Partition) (arg : AggArg)
    (dtype : Option String) (skipna : Bool) (min_count : Option Nat) : Except Err Series :=
  match s.agg_prelude partition arg skipna with
  | .error e => .error e
  | .ok (expr, part) =>
    match s.agg_min_count expr part skipna min_count with
    | .error e => .error e
    | .ok expr2 => s.agg_finish expr2 part dtype

/-- `Series.max` (`series.py` lines 890-891). -/
def Series.max (s : Series) (partition : Option Partition) (skipna : Bool) :
    Except Err Series :=
  s.derived_agg_func partition (.name "max") none skipna none

/-- `Series.count` (`series.py` lines 885-888). -/
def Series.count (s : Series) (partition : Option Partition) (skipna : Bool) :
    Except Err Series :=
  s.derived_agg_func partition (.name "count") (some "int64") skipna none

theorem nil_append (ys : ExprData) : ExprData.nil ++ ys = ys := rfl

theorem tokCons_append (t : ExpressionToken) (rest ys : ExprData) :
    ExprData.tokCons t rest ++ ys = .tokCons t (rest ++ ys) := rfl

theorem exprCons_append (tg : ExprTag) (c rest ys : ExprData) :
    ExprData.exprCons tg c rest ++ ys = .exprCons tg c (rest ++ ys) := rfl

theorem append_nil : (d : ExprData) → d ++ ExprData.nil = d
  | .nil => rfl
  | .tokCons t rest => by rw [tokCons_append, append_nil rest]
  | .exprCons tg c rest => by rw [exprCons_append, append_nil rest]

theorem append_assoc : (a : ExprData) → (b c : ExprData) → (a ++ b) ++ c = a ++ (b ++ c)
  | .nil, _, _ => rfl
  | .tokCons t rest, b, c => by
      rw [tokCons_append, tokCons_append, tokCons_append, append_assoc rest b c]
  | .exprCons tg ch rest, b, c => by
      rw [exprCons_append, exprCons_append, exprCons_append, append_assoc rest b c]

theorem spliceElem_append (tg : ExprTag) (c x y : ExprData) :
    spliceElem tg c x ++ y = spliceElem tg c (x ++ y) := by
  unfold spliceElem
  by_cases h : tg = ExprTag.plain
  · simp [h, append_assoc]
  · simp [h, exprCons_append]

theorem flattenOnce_append : (a : ExprData) → (b : ExprData) →
    flattenOnce (a ++ b) = flattenOnce a ++ flattenOnce b
  | .nil, b => rfl
  | .tokCons t rest, b => by
      rw [tokCons_append]
      show ExprData.tokCons t (flattenOnce (rest ++ b)) =
        ExprData.tokCons t (flattenOnce rest) ++ flattenOnce b
      rw [tokCons_append, flattenOnce_append rest b]
  | .exprCons tg c rest, b => by
      rw [exprCons_append]
      show spliceElem tg c (flattenOnce (rest ++ b)) =
        spliceElem tg c (flattenOnce rest) ++ flattenOnce b
      rw [flattenOnce_append rest b, spliceElem_append]

theorem resolveData_append (t : Option String) : (a : ExprData) → (b : ExprData) →
    resolveData t (a ++ b) = resolveData t a ++ resolveData t b
  | .nil, b => rfl
  | .tokCons (.RawToken r) rest, b => by
      rw [tokCons_append]
      simp only [resolveData]
      rw [tokCons_append, resolveData_append t rest b]
  | .tokCons (.AggFunctionRawToken r) rest, b => by
      rw [tokCons_append]
      simp only [resolveData]
      rw [tokCons_append, resolveData_append t rest b]
  | .tokCons (.ColumnReferenceToken c) rest, b => by
      rw [tokCons_append]
      simp only [resolveData]
      rw [tokCons_append, resolveData_append t rest b]
  | .tokCons (.ModelReferenceToken m) rest, b => by
      rw [tokCons_append]
      simp only [resolveData]
      rw [tokCons_append, resolveData_append t rest b]
  | .tokCons (.StringValueToken v) rest, b => by
      rw [tokCons_append]
      simp only [resolveData]
      rw [tokCons_append, resolveData_append t rest b]
  | .exprCons tg c rest, b => by
      rw [exprCons_append]
      simp only [resolveData]
      rw [exprCons_append, resolveData_append t rest b]

/-- Is a token a ColumnReferenceToken? -/
def isColRefTok : ExpressionToken → Bool
  | .ColumnReferenceToken _ => true
  | _ => false

/-- Does the element tree contain a ColumnReferenceToken anywhere? -/
def containsColRef : ExprData → Bool
  | .nil => false
  | .tokCons tk rest => isColRefTok tk || containsColRef rest
  | .exprCons _ c rest => containsColRef c || containsColRef rest

/-- Normal form reached after one `resolve_column_references`: no
ColumnReference token anywhere, no nested Expression of the exact class
`Expression` (tag `plain`) at any level (every level was rebuilt through
the flattening constructor), recursively. -/
def resolvedData : ExprData → Bool
  | .nil => true
  | .tokCons tk rest => !isColRefTok tk && resolvedData rest
  | .exprCons tg c rest => !(tg = ExprTag.plain) && resolvedData c && resolvedData rest

theorem resolvedData_append : (a : ExprData) → (b : ExprData) →
    resolvedData (a ++ b) = (resolvedData a && resolvedData b)
  | .nil, b => by simp [resolvedData, nil_append]
  | .tokCons tk rest, b => by
      rw [tokCons_append]
      simp [resolvedData, resolvedData_append rest b, Bool.and_assoc]
  | .exprCons tg c rest, b => by
      rw [exprCons_append]
      simp [resolvedData, resolvedData_append rest b, Bool.and_assoc]

theorem resolvedData_flattenOnce_resolveData (t : Option String) :
    (d : ExprData) → resolvedData (flattenOnce (resolveData t d)) = true
  | .nil => rfl
  | .tokCons (.RawToken r) rest => by
      simp [resolveData, flattenOnce, resolvedData, isColRefTok,
        resolvedData_flattenOnce_resolveData t rest]
  | .tokCons (.AggFunctionRawToken r) rest => by
      simp [resolveData, flattenOnce, resolvedData, isColRefTok,
        resolvedData_flattenOnce_resolveData t rest]
  | .tokCons (.ColumnReferenceToken c) rest => by
      simp [resolveData, flattenOnce, resolvedData, isColRefTok,
        resolvedData_flattenOnce_resolveData t rest]
  | .tokCons (.ModelReferenceToken m) rest => by
      simp [resolveData, flattenOnce, resolvedData, isColRefTok,
        resolvedData_flattenOnce_resolveData t rest]
  | .tokCons (.StringValueToken v) rest => by
      simp [resolveData, flattenOnce, resolvedData, isColRefTok,
        resolvedData_flattenOnce_resolveData t rest]
  | .exprCons tg c rest => by
      simp only [resolveData, flattenOnce, spliceElem]
      by_cases h : tg = ExprTag.plain
      · simp [h, resolvedData_append, resolvedData_flattenOnce_resolveData t c,
          resolvedData_flattenOnce_resolveData t rest]
      · simp [h, resolvedData, resolvedData_flattenOnce_resolveData t c,
          resolvedData_flattenOnce_resolveData t rest]

theorem flattenOnce_resolved : (d : ExprData) → resolvedData d = true → flattenOnce d = d
  | .nil, _ => rfl
  | .tokCons tk rest, h => by
      simp only [resolvedData, Bool.and_eq_true] at h
      simp [flattenOnce, flattenOnce_resolved rest h.2]
  | .exprCons tg c rest, h => by
      simp only [resolvedData, Bool.and_eq_true, Bool.not_eq_true', decide_eq_false_iff_not] at h
      simp [flattenOnce, spliceElem, h.1.1, flattenOnce_resolved rest h.2]

theorem resolveData_resolved (t : Option String) :
    (d : ExprData) → resolvedData d = true → resolveData t d = d
  | .nil, _ => rfl
  | .tokCons (.RawToken r) rest, h => by
      simp only [resolvedData, Bool.and_eq_true] at h
      simp [resolveData, resolveData_resolved t rest h.2]
  | .tokCons (.AggFunctionRawToken r) rest, h => by
      simp only [resolvedData, Bool.and_eq_true] at h
      simp [resolveData, resolveData_resolved t rest h.2]
  | .tokCons (.ColumnReferenceToken c) rest, h => by
      simp [resolvedData, isColRefTok] at h
  | .tokCons (.ModelReferenceToken m) rest, h => by
      simp only [resolvedData, Bool.and_eq_true] at h
      simp [resolveData, resolveData_resolved t rest h.2]
  | .tokCons (.StringValueToken v) rest, h => by
      simp only [resolvedData, Bool.and_eq_true] at h
      simp [resolveData, resolveData_resolved t rest h.2]
  | .exprCons tg c rest, h => by
      simp only [resolvedData, Bool.and_eq_true, Bool.not_eq_true', decide_eq_false_iff_not] at h
      simp [resolveData, resolveData_resolved t c h.1.2, resolveData_resolved t rest h.2,
        flattenOnce_resolved c h.1.2]

theorem noColRef_of_resolved : (d : ExprData) → resolvedData d = true → containsColRef d = false
  | .nil, _ => rfl
  | .tokCons tk rest, h => by
      simp only [resolvedData, Bool.and_eq_true, Bool.not_eq_true'] at h
      simp [containsColRef, h.1, noColRef_of_resolved rest h.2]
  | .exprCons tg c rest, h => by
      simp only [resolvedData, Bool.and_eq_true, Bool.not_eq_true', decide_eq_false_iff_not] at h
      simp [containsColRef, noColRef_of_resolved c h.1.2, noColRef_of_resolved rest h.2]

/-- The data of a resolved expression is in normal form. -/
theorem resolve_normal (e : Expression) (t : Option String) :
    resolvedData (e.resolve_column_references t).data = true := by
  simp only [Expression.resolve_column_references, Expression.make]
  exact resolvedData_flattenOnce_resolveData t e.data

/-- Resolving any expression twice (with any table names) gives exactly the
expression obtained by resolving once. -/
theorem resolve_idempotent (e : Expression) (t t' : Option String) :
    (e.resolve_column_references t).resolve_column_references t' =
      e.resolve_column_references t := by
  have h := resolve_normal e t
  simp only [Expression.resolve_column_references, Expression.make] at *
  rw [resolveData_resolved t' _ h, flattenOnce_resolved _ h]

def isOkE : Except Err String → Bool
  | .ok _ => true
  | .error _ => false

/-- The rendered string of a successful rendering (empty for an error). -/
def exOk : Except Err String → String
  | .ok s => s
  | .error _ => ""

theorem ok_of_isOkE (x : Except Err String) (h : isOkE x = true) : x = .ok (exOk x) := by
  cases x with
  | ok s => rfl
  | error e => simp [isOkE] at h

/-- Sequencing of rendering results: first error wins, two successes
concatenate. -/
def exAppendRes : Except Err String → Except Err String → Except Err String
  | .error e, _ => .error e
  | .ok _, .error e => .error e
  | .ok sa, .ok sb => .ok (sa ++ sb)

/-- Rendering of the non-ColumnReference tokens. -/
def tokStr : ExpressionToken → String
  | .RawToken r => escape_format_string r
  | .AggFunctionRawToken r => escape_format_string r
  | .ColumnReferenceToken _ => ""
  | .ModelReferenceToken h => "\x7breference" ++ h ++ "\x7d"
  | .StringValueToken v => escape_format_string (quote_string v)

theorem renderData_tokCons (tk : ExpressionToken) (rest : ExprData)
    (h : isColRefTok tk = false) :
    renderData (.tokCons tk rest) =
      Except.map (fun s => tokStr tk ++ s) (renderData rest) := by
  cases tk with
  | RawToken r => rfl
  | AggFunctionRawToken r => rfl
  | ColumnReferenceToken c => simp [isColRefTok] at h
  | ModelReferenceToken m => rfl
  | StringValueToken v => rfl

theorem renderData_exprCons (tg : ExprTag) (c rest : ExprData) :
    renderData (.exprCons tg c rest) = exAppendRes (renderData c) (renderData rest) := by
  cases hc : renderData c with
  | error e => simp [renderData, hc, exAppendRes]
  | ok s =>
    cases hr : renderData rest with
    | error e => simp [renderData, hc, hr, exAppendRes, Except.map]
    | ok s2 => simp [renderData, hc, hr, exAppendRes, Except.map]

theorem renderData_append : (a b : ExprData) →
    renderData (a ++ b) = exAppendRes (renderData a) (renderData b)
  | .nil, b => by
      cases hb : renderData b with
      | error e => simp [nil_append, renderData, exAppendRes, hb]
      | ok s => simp [nil_append, renderData, exAppendRes, hb, String.empty_append]
  | .tokCons tk rest, b => by
      rw [tokCons_append]
      by_cases h : isColRefTok tk = false
      · rw [renderData_tokCons tk _ h, renderData_tokCons tk rest h, renderData_append rest b]
        cases hr : renderData rest with
        | error e => simp [exAppendRes, Except.map]
        | ok sr =>
          cases hb : renderData b with
          | error e => simp [exAppendRes, Except.map]
          | ok sb => simp [exAppendRes, Except.map, String.append_assoc]
      · cases tk with
        | ColumnReferenceToken c => simp [renderData, exAppendRes]
        | RawToken r => simp [isColRefTok] at h
        | AggFunctionRawToken r => simp [isColRefTok] at h
        | ModelReferenceToken m => simp [isColRefTok] at h
        | StringValueToken v => simp [isColRefTok] at h
  | .exprCons tg c rest, b => by
      rw [exprCons_append, renderData_exprCons, renderData_exprCons, renderData_append rest b]
      cases hc : renderData c with
      | error e => simp [exAppendRes]
      | ok sc =>
        cases hr : renderData rest with
        | error e => simp [exAppendRes]
        | ok sr =>
          cases hb : renderData b with
          | error e => simp [exAppendRes]
          | ok sb => simp [exAppendRes, String.append_assoc]

/-- Flattening does not change the rendering: a nested exact-class
Expression renders as the concatenation of its elements either way. -/
theorem renderData_flattenOnce : (d : ExprData) →
    renderData (flattenOnce d) = renderData d
  | .nil => rfl
  | .tokCons tk rest => by
      by_cases h : isColRefTok tk = false
      · show renderData (.tokCons tk (flattenOnce rest)) = _
        rw [renderData_tokCons tk _ h, renderData_tokCons tk rest h,
          renderData_flattenOnce rest]
      · cases tk with
        | ColumnReferenceToken c => simp [flattenOnce, renderData]
        | RawToken r => simp [isColRefTok] at h
        | AggFunctionRawToken r => simp [isColRefTok] at h
        | ModelReferenceToken m => simp [isColRefTok] at h
        | StringValueToken v => simp [isColRefTok] at h
  | .exprCons tg c rest => by
      show renderData (spliceElem tg c (flattenOnce rest)) = _
      rw [renderData_exprCons]
      unfold spliceElem
      by_cases h : tg = ExprTag.plain
      · simp only [h, if_pos]
        rw [renderData_append, renderData_flattenOnce rest]
      · simp only [h, if_neg, not_false_iff]
        rw [renderData_exprCons, renderData_flattenOnce rest]

theorem renderData_isOk : (d : ExprData) → containsColRef d = false →
    isOkE (renderData d) = true
  | .nil, _ => rfl
  | .tokCons tk rest, h => by
      simp only [containsColRef, Bool.or_eq_false_iff] at h
      rw [renderData_tokCons tk rest h.1]
      have := renderData_isOk rest h.2
      cases hr : renderData rest with
      | error e => rw [hr] at this; simp [isOkE] at this
      | ok s => simp [Except.map, isOkE]
  | .exprCons tg c rest, h => by
      simp only [containsColRef, Bool.or_eq_false_iff] at h
      rw [renderData_exprCons]
      have hc := renderData_isOk c h.1
      have hr := renderData_isOk rest h.2
      cases h1 : renderData c with
      | error e => rw [h1] at hc; simp [isOkE] at hc
      | ok sc =>
        cases h2 : renderData rest with
        | error e => rw [h2] at hr; simp [isOkE] at hr
        | ok sr => simp [exAppendRes, isOkE]

/-- `to_sql` always succeeds: the internal resolution step removes every
ColumnReference token before the render loop runs. -/
theorem to_sql_isOk (e : Expression) (t : Option String) :
    isOkE (e.to_sql t) = true := by
  unfold Expression.to_sql
  exact renderData_isOk _ (noColRef_of_resolved _ (resolve_normal e t))

/-- The sql string of an expression rendered with no table name. -/
def sqlOf (e : Expression) : String := exOk (e.to_sql none)

theorem to_sql_eq_ok (e : Expression) : e.to_sql none = .ok (sqlOf e) :=
  ok_of_isOkE _ (to_sql_isOk e none)

def braceFreeChars : List Char → Bool
  | [] => true
  | c :: cs => !(c = lbraceChar || c = rbraceChar) && braceFreeChars cs

/-- Does the string contain neither brace character (the characters
meaningful to the placeholder-substitution syntax)? -/
def braceFree (s : String) : Bool := braceFreeChars s.data

theorem escFmtChars_id : (cs : List Char) → braceFreeChars cs = true → escFmtChars cs = cs
  | [], _ => rfl
  | c :: cs, h => by
      simp only [braceFreeChars, Bool.and_eq_true, Bool.not_eq_true', Bool.or_eq_false_iff,
        decide_eq_false_iff_not] at h
      simp [escFmtChars, h.1.1, h.1.2, escFmtChars_id cs h.2]

theorem escape_id (s : String) (h : braceFree s = true) : escape_format_string s = s := by
  cases s with
  | mk cs => simp only [escape_format_string, String.data]; rw [escFmtChars_id cs h]

/-- How one operand appears in the rendering of a constructed expression:
NonAtomic operands are wrapped in literal parentheses. -/
def wrappedSql (a : Expression) : String :=
  if a.tag = .nonAtomic then "(" ++ sqlOf a ++ ")" else sqlOf a

/-- The interleaving of rendered template segments (after the first) with
rendered operands, in template order. -/
def sqlInterleave : List String → List Expression → String
  | [], _ => ""
  | s :: ss, [] => s ++ sqlInterleave ss []
  | s :: ss, a :: as => wrappedSql a ++ s ++ sqlInterleave ss as

/-- The full rendering of a constructed expression: first segment, then
operands interleaved with the remaining segments. -/
def sqlOfTemplate : List String → List Expression → String
  | [], _ => ""
  | s :: ss, args => s ++ sqlInterleave ss args

/-- Like `sqlInterleave` but with no parenthesis wrapping: the plain
concatenation of segments and operand sql referred to by the claim. -/
def sqlConcat : List String → List Expression → String
  | [], _ => ""
  | s :: ss, [] => s ++ sqlConcat ss []
  | s :: ss, a :: as => sqlOf a ++ s ++ sqlConcat ss as

def sqlTemplateConcat : List String → List Expression → String
  | [], _ => ""
  | s :: ss, args => s ++ sqlConcat ss args

theorem sqlInterleave_no_nonatomic : (ss : List String) → (args : List Expression) →
    (∀ a ∈ args, a.tag ≠ ExprTag.nonAtomic) → sqlInterleave ss args = sqlConcat ss args
  | [], _, _ => rfl
  | s :: ss, [], _ => by
      simp [sqlInterleave, sqlConcat, sqlInterleave_no_nonatomic ss [] (by simp)]
  | s :: ss, a :: as, h => by
      have ha : a.tag ≠ ExprTag.nonAtomic := h a (List.mem_cons_self a as)
      have hs : ∀ x ∈ as, x.tag ≠ ExprTag.nonAtomic := fun x hx => h x (List.mem_cons_of_mem a hx)
      simp [sqlInterleave, sqlConcat, wrappedSql, ha, sqlInterleave_no_nonatomic ss as hs]

theorem render_rf_append (x y : ExprData) :
    renderData (resolveData none (flattenOnce (x ++ y))) =
      exAppendRes (renderData (resolveData none (flattenOnce x)))
        (renderData (resolveData none (flattenOnce y))) := by
  rw [flattenOnce_append, resolveData_append, renderData_append]

theorem render_rf_seg (s : String) (h : braceFree s = true) :
    renderData (resolveData none (flattenOnce (segData s))) = .ok s := by
  unfold segData
  by_cases h0 : s = ""
  · simp [h0, flattenOnce, resolveData, renderData]
  · simp only [h0, if_neg, not_false_iff, flattenOnce, resolveData, renderData]
    simp [Except.map, escape_id s h, String.append_empty]

theorem to_sql_unfold (a : Expression) :
    a.to_sql none = renderData (resolveData none a.data) := by
  show renderData (flattenOnce (resolveData none a.data)) = _
  rw [renderData_flattenOnce]

theorem render_rf_arg (a : Expression) :
    renderData (resolveData none (flattenOnce (argData a))) = .ok (wrappedSql a) := by
  have hsql := to_sql_unfold a
  rw [to_sql_eq_ok a] at hsql
  unfold argData wrappedSql
  by_cases hna : a.tag = ExprTag.nonAtomic
  · simp only [hna, if_pos]
    show renderData (resolveData none (.tokCons (.RawToken "(")
      (spliceElem ExprTag.nonAtomic a.data (.tokCons (.RawToken ")") (flattenOnce .nil))))) = _
    simp only [spliceElem, if_neg (by decide : ¬ (ExprTag.nonAtomic = ExprTag.plain)), flattenOnce]
    simp only [resolveData]
    rw [renderData_tokCons _ _ (by simp [isColRefTok]), renderData_exprCons,
      renderData_tokCons _ _ (by simp [isColRefTok])]
    rw [renderData_flattenOnce, ← hsql]
    simp only [renderData, Except.map]
    have h1 : escape_format_string "(" = "(" := rfl
    have h2 : escape_format_string ")" = ")" := rfl
    simp [tokStr, exAppendRes, h1, h2, String.append_empty, String.append_assoc]
  · simp only [hna, if_neg, not_false_iff]
    show renderData (resolveData none (spliceElem a.tag a.data (flattenOnce .nil))) = _
    unfold spliceElem
    by_cases hp : a.tag = ExprTag.plain
    · simp only [hp, if_pos, flattenOnce]
      rw [append_nil]
      exact hsql.symm
    · simp only [hp, if_neg, not_false_iff, flattenOnce]
      simp only [resolveData]
      rw [renderData_exprCons]
      rw [renderData_flattenOnce, ← hsql]
      simp [renderData, exAppendRes, String.append_empty]

theorem render_rf_interleave : (ss : List String) → (args : List Expression) →
    (∀ s ∈ ss, braceFree s = true) →
    renderData (resolveData none (flattenOnce (interleaveData ss args))) =
      .ok (sqlInterleave ss args)
  | [], _, _ => rfl
  | s :: ss, [], h => by
      have hs : braceFree s = true := h s (List.mem_cons_self s ss)
      have ht : ∀ x ∈ ss, braceFree x = true := fun x hx => h x (List.mem_cons_of_mem s hx)
      show renderData (resolveData none (flattenOnce (segData s ++ interleaveData ss []))) = _
      rw [render_rf_append, render_rf_seg s hs, render_rf_interleave ss [] ht]
      simp [sqlInterleave, exAppendRes]
  | s :: ss, a :: as, h => by
      have hs : braceFree s = true := h s (List.mem_cons_self s ss)
      have ht : ∀ x ∈ ss, braceFree x = true := fun x hx => h x (List.mem_cons_of_mem s hx)
      show renderData (resolveData none (flattenOnce
        ((argData a ++ segData s) ++ interleaveData ss as))) = _
      rw [render_rf_append, render_rf_append, render_rf_seg s hs, render_rf_arg a,
        render_rf_interleave ss as ht]
      simp [sqlInterleave, exAppendRes, String.append_assoc]

theorem render_rf_constructData (ss : List String) (args : List Expression)
    (h : ∀ s ∈ ss, braceFree s = true) :
    renderData (resolveData none (flattenOnce (constructData ss args))) =
      .ok (sqlOfTemplate ss args) := by
  cases ss with
  | nil => rfl
  | cons s ss =>
    have hs : braceFree s = true := h s (List.mem_cons_self s ss)
    have ht : ∀ x ∈ ss, braceFree x = true := fun x hx => h x (List.mem_cons_of_mem s hx)
    show renderData (resolveData none (flattenOnce (segData s ++ interleaveData ss args))) = _
    rw [render_rf_append, render_rf_seg s hs, render_rf_interleave ss args ht]
    simp [sqlOfTemplate, exAppendRes]

theorem sqlOfTemplate_concat (ss : List String) (args : List Expression)
    (h : ∀ a ∈ args, a.tag ≠ ExprTag.nonAtomic) :
    sqlOfTemplate ss args = sqlTemplateConcat ss args := by
  cases ss with
  | nil => rfl
  | cons s ss =>
    show s ++ sqlInterleave ss args = s ++ sqlConcat ss args
    rw [sqlInterleave_no_nonatomic ss args h]

/-- Claim C1 (amended): for every format template whose literal segments
contain no brace characters, and matching operands, `Expression.construct`
succeeds and the rendered sql of the result is the concatenation of the
template segments with each operand's rendered sql in order, where an
operand tagged NonAtomic appears wrapped in literal parentheses; when no
operand is NonAtomic this is exactly the plain concatenation of template
text and operand sql.  (The brace-free proviso is forced by the
counterexample: rendering escapes braces in raw template text.) -/
theorem c1_construct_renders_template (tag : ExprTag) (fmt : String) (args : List Expression)
    (hlen : args.length = (splitFmt fmt).length - 1)
    (hbf : ∀ s ∈ splitFmt fmt, braceFree s = true) :
    ∃ e, Expression.construct tag fmt args = .ok e ∧
      e.to_sql none = .ok (sqlOfTemplate (splitFmt fmt) args) ∧
      ((∀ a ∈ args, a.tag ≠ ExprTag.nonAtomic) →
        e.to_sql none = .ok (sqlTemplateConcat (splitFmt fmt) args)) := by
  refine ⟨Expression.make tag (constructData (splitFmt fmt) args), ?_, ?_, ?_⟩
  · unfold Expression.construct
    simp [hlen]
  · rw [to_sql_unfold]
    show renderData (resolveData none (flattenOnce (constructData (splitFmt fmt) args))) = _
    exact render_rf_constructData (splitFmt fmt) args hbf
  · intro h
    rw [to_sql_unfold]
    show renderData (resolveData none (flattenOnce (constructData (splitFmt fmt) args))) = _
    rw [render_rf_constructData (splitFmt fmt) args hbf, sqlOfTemplate_concat _ _ h]

/-- Claim C1, witness: `construct('\x7b\x7d + \x7b\x7d', a, b)` for plain raw
operands renders as `a + b`. -/
theorem c1_witness :
    ∃ e, Expression.construct .plain "\x7b\x7d + \x7b\x7d"
        [Expression.raw "a", Expression.raw "b"] = .ok e ∧
      e.to_sql none = .ok (sqlOfTemplate (splitFmt "\x7b\x7d + \x7b\x7d")
        [Expression.raw "a", Expression.raw "b"]) ∧
      ((∀ a ∈ [Expression.raw "a", Expression.raw "b"], a.tag ≠ ExprTag.nonAtomic) →
        e.to_sql none = .ok (sqlTemplateConcat (splitFmt "\x7b\x7d + \x7b\x7d")
          [Expression.raw "a", Expression.raw "b"])) :=
  c1_construct_renders_template .plain "\x7b\x7d + \x7b\x7d"
    [Expression.raw "a", Expression.raw "b"] (by decide) (by decide)

/-- Claim C1, counterexample: with the template `\x7bx\x7d` (no markers, so
no operands) the constructed expression renders as `\x7b\x7bx\x7d\x7d` —
the raw template text with braces escaped for the placeholder-substitution
syntax — not as the template text itself, refuting the unconditional
concatenation equation of the claim. -/
theorem c1_counterexample :
    Expression.construct .plain "\x7bx\x7d" [] = .ok (Expression.raw "\x7bx\x7d") ∧
    (Expression.raw "\x7bx\x7d").to_sql none = .ok "\x7b\x7bx\x7d\x7d" ∧
    ¬ (Expression.raw "\x7bx\x7d").to_sql none = .ok "\x7bx\x7d" := by
  decide

/-- Claim C4: resolution is idempotent — the result of one
`resolve_column_references` contains no ColumnReference token anywhere in
the tree, resolving again (with any table name) returns exactly the same
expression, and tokens other than ColumnReference pass through resolution
unchanged. -/
theorem c4_resolve_idempotent (e : Expression) (t t' : Option String) :
    containsColRef (e.resolve_column_references t).data = false ∧
    (e.resolve_column_references t).resolve_column_references t' =
      e.resolve_column_references t ∧
    (∀ (tg : ExprTag) (tk : ExpressionToken), isColRefTok tk = false →
      Expression.resolve_column_references ⟨tg, .tokCons tk .nil⟩ t =
        ⟨tg, .tokCons tk .nil⟩) := by
  refine ⟨noColRef_of_resolved _ (resolve_normal e t), resolve_idempotent e t t', ?_⟩
  intro tg tk h
  cases tk with
  | ColumnReferenceToken c => simp [isColRefTok] at h
  | RawToken r => rfl
  | AggFunctionRawToken r => rfl
  | ModelReferenceToken m => rfl
  | StringValueToken v => rfl

/-- Claim C4, witness at a concrete expression and table names. -/
theorem c4_witness :
    containsColRef ((Expression.column_reference "a").resolve_column_references
      (some "t")).data = false ∧
    Expression.resolve_column_references ⟨.plain, .tokCons (.RawToken "y") .nil⟩ none =
      ⟨.plain, .tokCons (.RawToken "y") .nil⟩ :=
  ⟨(c4_resolve_idempotent (Expression.column_reference "a") (some "t") none).1,
   (c4_resolve_idempotent (Expression.column_reference "a") none none).2.2
     .plain (.RawToken "y") rfl⟩

/-- Claim C5 (amended): `to_sql` applies `resolve_column_references` itself
before its render loop (source line 223), so an unresolved ColumnReference
token can never reach the loop through `to_sql` and `to_sql` always
succeeds; the loud ValueError branch for a surviving ColumnReference does
exist in the render loop but is unreachable via `to_sql`. -/
theorem c5_to_sql_never_fails (e : Expression) (t : Option String) :
    (∃ s, e.to_sql t = .ok s) ∧
    (∀ (c : String) (rest : ExprData),
      renderData (.tokCons (.ColumnReferenceToken c) rest) = .error (.valueError
        "ColumnReferenceTokens should be resolved first using Expression.resolve_column_references")) :=
  ⟨⟨exOk (e.to_sql t), ok_of_isOkE _ (to_sql_isOk e t)⟩, fun _ _ => rfl⟩

/-- Claim C5, counterexample: `to_sql` on an expression that contains an
unresolved ColumnReference token does not fail — it resolves the token
itself and renders the quoted identifier. -/
theorem c5_counterexample :
    (Expression.column_reference "a").to_sql none = .ok "\"a\"" ∧
    isOkE ((Expression.column_reference "a").to_sql none) = true := by decide

/-- Claim C6 (amended): construction flattens exactly the children of the
exact class `Expression` (tag `plain`) — their elements are spliced in
place; a child of any tag subclass is kept as a single nested element with
its tag preserved on itself; tokens pass through; and the constructed
instance always carries the tag (class) the constructor was invoked on,
never one propagated from children. -/
theorem c6_flatten_exact_class (tag tg : ExprTag) (tk : ExpressionToken)
    (cs ds : ExprData) (h : tg ≠ ExprTag.plain) :
    (Expression.make tag ds).tag = tag ∧
    (Expression.make tag (.exprCons .plain cs ds)).data = cs ++ (Expression.make tag ds).data ∧
    (Expression.make tag (.exprCons tg cs ds)).data =
      .exprCons tg cs (Expression.make tag ds).data ∧
    (Expression.make tag (.tokCons tk ds)).data = .tokCons tk (Expression.make tag ds).data := by
  refine ⟨rfl, ?_, ?_, rfl⟩
  · show spliceElem .plain cs (flattenOnce ds) = _
    simp [spliceElem, Expression.make]
  · show spliceElem tg cs (flattenOnce ds) = _
    simp [spliceElem, h, Expression.make]

/-- Claim C6, witness. -/
theorem c6_witness :
    (Expression.make .plain (.exprCons .nonAtomic (.tokCons (.RawToken "x") .nil) .nil)).data =
      .exprCons .nonAtomic (.tokCons (.RawToken "x") .nil)
        (Expression.make .plain .nil).data :=
  (c6_flatten_exact_class .plain .nonAtomic (.RawToken "x")
    (.tokCons (.RawToken "x") .nil) .nil (by decide)).2.2.1

/-- Claim C6, counterexample: a child Expression of the NonAtomic tag
subclass is an Expression, yet its elements are not spliced — the child is
kept nested with its tag — refuting "the elements of any child Expression
in the list are spliced in place". -/
theorem c6_counterexample :
    (Expression.make .plain (.exprCons .nonAtomic (.tokCons (.RawToken "x") .nil) .nil)).data =
      .exprCons .nonAtomic (.tokCons (.RawToken "x") .nil) .nil ∧
    ¬ (Expression.make .plain (.exprCons .nonAtomic (.tokCons (.RawToken "x") .nil) .nil)).data =
      .tokCons (.RawToken "x") .nil := by decide

/-- Claim C7 (amended): for an Expression whose class overrides neither
property (any tag other than Const, and other than the spec-modelled
AggregateFunction override for `is_constant`), `is_constant` is true
exactly when the expression has at least one nested Expression child and
all nested Expression children are constant (tokens are not counted;
the empty conjunction is false), and `is_single_value` follows the
analogous rule with SingleValue and Const overriding it to true;
`ConstValueExpression` reports `is_constant` true unconditionally, and in
particular a Const-tagged wrapping of `Expression.raw('1')` reports
`is_constant` true. -/
theorem c7_is_constant_rule (tg tg2 : ExprTag) (ds ds2 : ExprData)
    (h1 : tg ≠ ExprTag.constValue) (h2 : tg ≠ ExprTag.aggregateFunction)
    (h3 : tg2 ≠ ExprTag.singleValue) (h4 : tg2 ≠ ExprTag.constValue) :
    Expression.is_constant ⟨tg, ds⟩ = (hasExprChild ds && allChildrenConstant ds) ∧
    Expression.is_constant ⟨ExprTag.constValue, ds2⟩ = true ∧
    Expression.is_single_value ⟨tg2, ds⟩ = (hasExprChild ds && allChildrenSingleValue ds) ∧
    Expression.is_single_value ⟨ExprTag.singleValue, ds2⟩ = true ∧
    Expression.is_single_value ⟨ExprTag.constValue, ds2⟩ = true ∧
    Expression.is_constant (Expression.ofExpr .constValue (Expression.raw "1")) = true := by
  refine ⟨?_, by simp [Expression.is_constant], ?_, by simp [Expression.is_single_value],
    by simp [Expression.is_single_value], by decide⟩
  · simp [Expression.is_constant, h1, h2]
  · simp [Expression.is_single_value, h3, h4]

/-- Claim C7, witness. -/
theorem c7_witness :
    Expression.is_constant ⟨ExprTag.plain, .tokCons (.RawToken "x") .nil⟩ =
      (hasExprChild (.tokCons (.RawToken "x") .nil) &&
        allChildrenConstant (.tokCons (.RawToken "x") .nil)) ∧
    Expression.is_constant (Expression.ofExpr .constValue (Expression.raw "1")) = true :=
  ⟨(c7_is_constant_rule .plain .plain (.tokCons (.RawToken "x") .nil) .nil
      (by decide) (by decide) (by decide) (by decide)).1,
   (c7_is_constant_rule .plain .plain (.tokCons (.RawToken "x") .nil) .nil
      (by decide) (by decide) (by decide) (by decide)).2.2.2.2.2⟩

/-- Claim C7, counterexample: a Const-tagged Expression with no children at
all still reports `is_constant` true (class override), refuting the claimed
equivalence "is_constant iff at least one child and all children constant". -/
theorem c7_counterexample :
    (⟨ExprTag.constValue, ExprData.nil⟩ : Expression).data = ExprData.nil ∧
    ¬ (((⟨ExprTag.constValue, ExprData.nil⟩ : Expression).is_constant = true) ↔
      (hasExprChild ExprData.nil = true ∧ allChildrenConstant ExprData.nil = true)) := by decide

theorem exprEqData_refl : (d : ExprData) → exprEqData d d = true
  | .nil => rfl
  | .tokCons a r => by simp [exprEqData, exprEqData_refl r]
  | .exprCons tg c r => by simp [exprEqData, exprEqData_refl c, exprEqData_refl r]

/-- Claim C10: Expression equality is decided solely by the element
sequence — any two Expression instances with equal element sequences
compare equal regardless of their tag classes, so the semantic flags
carried as class identity are invisible to equality; in particular a
Const-tagged expression equals a plain Expression with the same token,
even though their `is_constant` flags differ. -/
theorem c10_eq_ignores_tags (e1 e2 : Expression) (h : e1.data = e2.data) :
    Expression.eq e1 e2 = true ∧
    Expression.eq (Expression.ofExpr .constValue (Expression.raw "1"))
      (Expression.raw "1") = true ∧
    (Expression.ofExpr .constValue (Expression.raw "1")).is_constant = true ∧
    (Expression.raw "1").is_constant = false := by
  refine ⟨?_, by decide, by decide, by decide⟩
  unfold Expression.eq
  rw [h]
  exact exprEqData_refl e2.data

/-- Claim C10, witness. -/
theorem c10_witness :
    Expression.eq (Expression.ofExpr .singleValue (Expression.raw "q"))
      (Expression.ofExpr .independentSubquery (Expression.raw "q")) = true :=
  (c10_eq_ignores_tags (Expression.ofExpr .singleValue (Expression.raw "q"))
    (Expression.ofExpr .independentSubquery (Expression.raw "q")) rfl).1

/-- The element sequence `(SELECT <col> FROM <unit-reference>)` produced by
`as_independent_subquery` with no operation prefix. -/
def subqueryData (name hash : String) : ExprData :=
  .tokCons (.RawToken "(SELECT ") (.tokCons (.ColumnReferenceToken name)
    (.tokCons (.RawToken " FROM ") (.tokCons (.ModelReferenceToken hash)
      (.tokCons (.RawToken ")") .nil))))

theorem construct_subquery (name hash : String) :
    Expression.construct .independentSubquery "(SELECT \x7b\x7d FROM \x7b\x7d)"
      [Expression.column_reference name, Expression.model_reference hash] =
      .ok ⟨.independentSubquery, subqueryData name hash⟩ := rfl

/-- Full characterization of `as_independent_subquery(series)` (no
operation, no dtype override), shared by the claims below. -/
theorem as_independent_subquery_spec (s : Series) :
    s.as_independent_subquery none none = .ok { s with
      expression := ⟨if s.expression.is_single_value then .singleValue else .independentSubquery,
        subqueryData s.name (materializedNode s).hash⟩,
      index := [], group_by := none } := by
  have hfl : flattenOnce (subqueryData s.name (materializedNode s).hash) =
      subqueryData s.name (materializedNode s).hash := rfl
  by_cases hsv : s.expression.is_single_value = true
  · simp [Series.as_independent_subquery, construct_subquery, hsv,
      Expression.ofExpr, Expression.make, hfl]
  · simp only [Bool.not_eq_true] at hsv
    simp [Series.as_independent_subquery, construct_subquery, hsv]

/-- Claim C9: `as_independent_subquery(s)` returns a Series whose
expression has the independent-subquery shape
`(SELECT <col> FROM <materialized-unit-reference>)`; when the original
expression was tagged single-value the new wrapped expression is again
tagged single-value (otherwise it stays tagged IndependentSubquery), and
the returned Series has an empty index, no pending group_by and an
unchanged dtype. -/
theorem c9_as_independent_subquery (s : Series) :
    ∃ r, s.as_independent_subquery none none = .ok r ∧
      r.expression.data = subqueryData s.name (materializedNode s).hash ∧
      (s.expression.is_single_value = true →
        r.expression.tag = .singleValue ∧ r.expression.is_single_value = true) ∧
      (s.expression.is_single_value = false → r.expression.tag = .independentSubquery) ∧
      r.index = [] ∧ r.group_by = none ∧ r.dtype = s.dtype := by
  refine ⟨_, as_independent_subquery_spec s, rfl, ?_, ?_, rfl, rfl, rfl⟩
  · intro h
    constructor
    · show (if s.expression.is_single_value then ExprTag.singleValue
        else ExprTag.independentSubquery) = _
      simp [h]
    · have htag : (if s.expression.is_single_value then ExprTag.singleValue
        else ExprTag.independentSubquery) = ExprTag.singleValue := by simp [h]
      show Expression.is_single_value ⟨if s.expression.is_single_value then ExprTag.singleValue
        else ExprTag.independentSubquery, subqueryData s.name (materializedNode s).hash⟩ = true
      rw [htag]
      simp [Expression.is_single_value]
  · intro h
    show (if s.expression.is_single_value then ExprTag.singleValue
      else ExprTag.independentSubquery) = _
    simp [h]

/-- Demonstration series: a plain int64 column `a` on base node `n1`. -/
def sA : Series :=
  ⟨"eng", ⟨"n1"⟩, [], "a", Expression.column_reference "a", none, none, "int64"⟩

/-- Demonstration series: a single-value string expression on base node `n2`. -/
def sB : Series :=
  ⟨"eng", ⟨"n2"⟩, [], "b", Expression.ofExpr .singleValue (Expression.raw "x"),
    none, none, "string"⟩

/-- Demonstration series: like `sB` but of dtype int64. -/
def sB2 : Series :=
  ⟨"eng", ⟨"n2"⟩, [], "b", Expression.ofExpr .singleValue (Expression.raw "x"),
    none, none, "int64"⟩

/-- Claim C3 (amended): when the right-hand operand's expression is neither
constant nor an independent subquery and the operands differ in base_node
or group_by, then: if the operand is not single-valued the operation raises
the context-incompatibility ValueError and nothing else happens; if it is
single-valued the operand is converted into an independent-subquery
`(SELECT <col> FROM <ref>)` expression and the operation succeeds with the
converted operand provided its dtype is in the operation's allow-list
(otherwise it raises the dtype TypeError). -/
theorem c3_context_incompatibility (self other : Series) (opName : String)
    (dtypes : List String)
    (h1 : (other.expression.is_constant || other.expression.is_independent_subquery) = false)
    (h2 : ¬ (self.base_node = other.base_node ∧ self.group_by = other.group_by)) :
    (other.expression.is_single_value = false →
      self.get_supported opName dtypes other = .error (.valueError
        "rhs has a different base_node or group_by, but contains more than one value. This is not supported.")) ∧
    (other.expression.is_single_value = true →
      ∃ conv, Series.as_independent_subquery other none none = .ok conv ∧
        conv.expression.data = subqueryData other.name (materializedNode other).hash ∧
        self.get_supported opName dtypes other =
          (if strLower conv.dtype ∈ dtypes then .ok conv
           else .error (.typeError (opName ++ " not supported between " ++ self.dtype ++
             " and " ++ conv.dtype ++ ".")))) := by
  constructor
  · intro hsv
    unfold Series.get_supported
    simp only [h1, Bool.false_eq_true, if_neg, not_false_iff, h2, hsv]
  · intro hsv
    refine ⟨_, as_independent_subquery_spec other, rfl, ?_⟩
    unfold Series.get_supported
    simp only [h1, Bool.false_eq_true, if_neg, not_false_iff, h2, hsv, if_pos,
      as_independent_subquery_spec other]

/-- Claim C3, witness: with a matching dtype the conversion succeeds. -/
theorem c3_witness :
    ∃ conv, Series.as_independent_subquery sB2 none none = .ok conv ∧
      conv.expression.data = subqueryData sB2.name (materializedNode sB2).hash ∧
      sA.get_supported "add" ["int64"] sB2 =
        (if strLower conv.dtype ∈ ["int64"] then .ok conv
         else .error (.typeError ("add not supported between " ++ sA.dtype ++
           " and " ++ conv.dtype ++ "."))) :=
  (c3_context_incompatibility sA sB2 "add" ["int64"] (by decide) (by decide)).2 (by decide)

/-- Claim C3, counterexample: `sB` is single-valued, non-constant, not an
independent subquery, and lives on a different base node than `sA`, yet the
operation does not succeed — after the independent-subquery conversion the
dtype allow-list check raises a TypeError — refuting the claim that the
operation succeeds whenever the right-hand expression is single-valued. -/
theorem c3_counterexample :
    sB.expression.is_single_value = true ∧
    (sB.expression.is_constant || sB.expression.is_independent_subquery) = false ∧
    ¬ sA.base_node = sB.base_node ∧
    sA.get_supported "add" ["int64"] sB =
      .error (.typeError "add not supported between int64 and string.") := by decide

theorem agg_prelude_ok_partition (s : Series) (p : Option Partition) (arg : AggArg)
    (skipna : Bool) (e : Expression) (part : Partition)
    (h : s.agg_prelude p arg skipna = .ok (e, part)) :
    part = effectivePartition p s.group_by := by
  unfold Series.agg_prelude at h
  split_ifs at h
  cases arg with
  | expr e0 =>
    simp only [Except.ok.injEq, Prod.mk.injEq] at h
    exact h.2.symm
  | name fn =>
    cases hc : Expression.construct .aggregateFunction (fn ++ "(\x7b\x7d)") [s.expression] with
    | error err => simp only [hc] at h; exact Except.noConfusion h
    | ok e0 =>
      simp only [hc, Except.ok.injEq, Prod.mk.injEq] at h
      exact h.2.symm

theorem agg_finish_groupBy_empty (s : Series) (expr : Expression) (g : GroupBy)
    (dt : Option String) (r : Series) (hempty : g.index = [])
    (h : s.agg_finish expr (.groupBy g) dt = .ok r) :
    r.expression.tag = .singleValue ∧ r.index = g.index ∧ r.group_by = some (.groupBy g) := by
  unfold Series.agg_finish at h
  cases hmis : groupByMismatch s.group_by g with
  | true => simp [hmis] at h
  | false =>
    simp only [hmis, Bool.false_eq_true, if_neg, not_false_iff] at h
    by_cases hagg : expr.has_aggregate_function = false
    · simp [hagg] at h
    · rw [if_neg hagg] at h
      simp only [hempty, if_pos, Except.ok.injEq] at h
      subst h
      exact ⟨rfl, hempty.symm, rfl⟩

/-- Claim C8: for every aggregation through `_derived_agg_func` that
succeeds with a non-window effective partition whose grouping key is
empty, the resulting Series' expression is tagged SingleValue, and the
returned Series is bound to the partition's index with the partition
carried as its pending group_by. -/
theorem c8_empty_grouping_single_value (s : Series) (p : Option Partition) (arg : AggArg)
    (dt : Option String) (skipna : Bool) (mc : Option Nat) (r : Series) (g : GroupBy)
    (hok : s.derived_agg_func p arg dt skipna mc = .ok r)
    (heff : effectivePartition p s.group_by = .groupBy g)
    (hempty : g.index = []) :
    r.expression.tag = .singleValue ∧ r.index = g.index ∧ r.group_by = some (.groupBy g) := by
  unfold Series.derived_agg_func at hok
  cases h1 : s.agg_prelude p arg skipna with
  | error e => rw [h1] at hok; simp at hok
  | ok pr =>
    obtain ⟨expr, part⟩ := pr
    have hpart := agg_prelude_ok_partition s p arg skipna expr part h1
    rw [heff] at hpart
    subst hpart
    simp only [h1] at hok
    cases h2 : s.agg_min_count expr (.groupBy g) skipna mc with
    | error e => simp only [h2] at hok; exact Except.noConfusion hok
    | ok expr2 =>
      simp only [h2] at hok
      exact agg_finish_groupBy_empty s expr2 g dt r hempty hok

/-- Demonstration series for the aggregation gate: a plain int64 column
`a` with one index column and no pending grouping. -/
def s0 : Series :=
  ⟨"eng", ⟨"n0"⟩, ["idx"], "a", Expression.column_reference "a", none, none, "int64"⟩

/-- Result of `s0.max()`: `max("a")` wrapped as a SingleValueExpression,
bound to the empty index of the whole-input grouping. -/
def s1max : Series :=
  { s0 with
    expression := ⟨.singleValue, .tokCons (.RawToken "max(")
      (.tokCons (.ColumnReferenceToken "a") (.tokCons (.RawToken ")") .nil))⟩,
    index := [],
    group_by := some (.groupBy ⟨[]⟩) }

/-- Result of `s1max.max()`: `max(max("a"))`, again SingleValue-wrapped —
the source produces this instead of raising. -/
def s2max : Series :=
  { s0 with
    expression := ⟨.singleValue, .tokCons (.RawToken "max(")
      (.exprCons .singleValue (.tokCons (.RawToken "max(")
        (.tokCons (.ColumnReferenceToken "a") (.tokCons (.RawToken ")") .nil)))
        (.tokCons (.RawToken ")") .nil))⟩,
    index := [],
    group_by := some (.groupBy ⟨[]⟩) }

/-- Claim C8, witness: the whole-input `max` aggregation of `s0`. -/
theorem c8_witness :
    s1max.expression.tag = .singleValue ∧ s1max.index = (⟨[]⟩ : GroupBy).index ∧
      s1max.group_by = some (.groupBy ⟨[]⟩) :=
  c8_empty_grouping_single_value s0 none (.name "max") none true none s1max ⟨[]⟩
    (by decide) (by decide) rfl

/-- Like `s0` but with a pending non-empty grouping on column `g`. -/
def sG : Series := { s0 with group_by := some (.groupBy ⟨["g"]⟩) }

/-- Result of `sG.max()`: the grouped aggregate keeps its
AggregateFunction class (no SingleValue re-wrap, non-empty key). -/
def sGmax : Series :=
  { s0 with
    expression := ⟨.aggregateFunction, .tokCons (.RawToken "max(")
      (.tokCons (.ColumnReferenceToken "a") (.tokCons (.RawToken ")") .nil))⟩,
    index := ["g"],
    group_by := some (.groupBy ⟨["g"]⟩) }

/-- Claim C2, code-bug evaluation: after a whole-input `.max()` the
SingleValueExpression re-wrap of `_derived_agg_func` (series.py line 875,
via `Expression.__init__` taking `data.data`) drops the
AggregateFunctionExpression class, so the already-aggregated guard of the
next `.max()` sees `has_aggregate_function` false and the second call
succeeds with `max(max("a"))` instead of raising the illegal-reaggregation
error; with a non-empty grouping key (no SingleValue re-wrap) the marker
survives and the second call raises exactly as the spec demands. -/
theorem c2_reaggregation_guard_defeated :
    s0.max none true = .ok s1max ∧
    s1max.expression.has_aggregate_function = false ∧
    s1max.expression.has_windowed_aggregate_function = false ∧
    s1max.max none true = .ok s2max ∧
    sG.max none true = .ok sGmax ∧
    sGmax.expression.has_aggregate_function = true ∧
    sGmax.max none true = .error (.valueError
      ("Cannot call an aggregation function on already aggregated column a" ++
        " Try calling materialize() on the DataFrame this Series belongs to first.")) := by
  decide
